import Mathlib

/-!
Shallow embedding of the Study-Tracker application (`src/main.py`).

The program keeps an append-only log of daily observations in a CSV file
(`data.csv`), and on each interaction derives two indicators from the full
log: a predicted stress level (linear regression of stress on study hours,
evaluated at 10 study hours) and a burnout label (decision tree fit on a
threshold rule), plus a templated study plan and a PDF export.

Numeric values are modelled as rationals (the UI widgets submit finite
decimals; CSV round-trips them at the declared precision), machine floats'
rounding being out of scope.  The external libraries the source delegates
to are modelled by their documented semantics: `LinearRegression` as the
ordinary-least-squares fit, `DecisionTreeClassifier` as a CART tree grown
to purity with midpoint thresholds and gini impurity, `np.where` as a
pointwise conditional.
-/

namespace StudyTracker

/-- One row of the log, mirroring the five CSV columns written by the
`daily_form` submission handler (main.py lines 54-60). -/
structure Observation where
  date : String
  study_hours : ℚ
  stress_level : ℚ
  sleep_hours : ℚ
  exercise_min : ℕ
deriving Repr, DecidableEq

/-- The header of the persisted CSV, the columns given to the empty
`pd.DataFrame` at main.py line 21. -/
def fixedColumns : List String :=
  ["date", "study_hours", "stress_level", "sleep_hours", "exercise_min"]

/-- The in-memory DataFrame `df`: a column header plus ordered rows. -/
structure Table where
  cols : List String
  rows : List Observation
deriving Repr, DecidableEq

/-- The empty table created when no data file exists (main.py line 21). -/
def emptyTable : Table := { cols := fixedColumns, rows := [] }

/-- The persisted `data.csv` as seen at process start: absent, a
well-formed CSV (the only kind this program ever writes), or malformed. -/
inductive FileState where
  | absent
  | wellFormed (t : Table)
  | malformed
deriving Repr, DecidableEq

/-- Errors `pd.read_csv` can raise on this file. -/
inductive ReadError where
  | fileNotFound
  | parseError
deriving Repr, DecidableEq

/-- Behaviour of `pd.read_csv(DATA_FILE)` (main.py line 19): a missing file
raises FileNotFoundError, a malformed file raises a parser error, a
well-formed file yields its table. -/
def read_csv : FileState → Except ReadError Table
  | .absent => .error .fileNotFound
  | .wellFormed t => .ok t
  | .malformed => .error .parseError

/-- The try/except block at main.py lines 18-22: only FileNotFoundError is
caught, in which case an empty five-column table is created and written
back; any other read error propagates. -/
def loadOrInit (fs : FileState) : Except ReadError (Table × FileState) :=
  match read_csv fs with
  | .ok t => .ok (t, fs)
  | .error .fileNotFound => .ok (emptyTable, .wellFormed emptyTable)
  | .error .parseError => .error .parseError

/-- The raw values of the four input widgets of the daily form
(main.py lines 48-51). -/
structure FormInput where
  study_hours : ℚ
  stress_level : ℚ
  sleep_hours : ℚ
  exercise_min : ℕ
deriving Repr, DecidableEq

/-- The ranges the input widgets enforce: number inputs bounded 0-24, the
stress slider 1-10 (integral), exercise minutes a natural. -/
def ValidInput (f : FormInput) : Prop :=
  0 ≤ f.study_hours ∧ f.study_hours ≤ 24 ∧
  1 ≤ f.stress_level ∧ f.stress_level ≤ 10 ∧
  0 ≤ f.sleep_hours ∧ f.sleep_hours ≤ 24

instance (f : FormInput) : Decidable (ValidInput f) := by
  unfold ValidInput; infer_instance

/-- A calendar date, as `datetime.date.today()` returns it. -/
structure Date where
  year : ℕ
  month : ℕ
  day : ℕ
deriving Repr, DecidableEq

/-- Decimal rendering of a natural, left-padded with zeros to `width`
digits, as strftime's %Y / %m / %d directives pad. -/
def padNum (width n : ℕ) : String :=
  let s := toString n
  if s.length < width then String.mk (List.replicate (width - s.length) '0') ++ s
  else s

/-- `datetime.date.today().strftime(yyyy-mm-dd)` (main.py line 55). -/
def formatDate (d : Date) : String :=
  padNum 4 d.year ++ "-" ++ padNum 2 d.month ++ "-" ++ padNum 2 d.day

/-- The `new_data` row built on submission (main.py lines 54-60): the date
column is the current date at submission time, the rest are the widget
values. -/
def new_data (today : Date) (f : FormInput) : Observation :=
  { date := formatDate today
    study_hours := f.study_hours
    stress_level := f.stress_level
    sleep_hours := f.sleep_hours
    exercise_min := f.exercise_min }

/-- Artifacts the process can write besides the data file: the state of
the world outside the in-memory DataFrame. -/
structure PdfReport where
  titleLine : String
  entriesLine : String
  chartImage : List (String × ℚ)
deriving Repr, DecidableEq

/-- The files the program touches: the persisted data file, plus the
report.pdf / stress.png artifacts of the export tab. -/
structure FileEnv where
  dataFile : FileState
  reportPdf : Option PdfReport
  stressPng : Option (List (String × ℚ))
deriving Repr, DecidableEq

/-- The submit branch of the daily form (main.py lines 53-62):
concatenate the new row onto `df` and rewrite the whole CSV. -/
def submit (env : FileEnv) (t : Table) (today : Date) (f : FormInput) :
    FileEnv × Table :=
  let t' : Table := { t with rows := t.rows ++ [new_data today f] }
  ({ env with dataFile := .wellFormed t' }, t')

/-- A whole session of form submissions starting from a fresh install
(no data file): load initialises the empty table and file, then each
submission appends one row and rewrites the file. -/
def runSession (inputs : List (Date × FormInput)) : FileEnv × Table :=
  inputs.foldl (fun s p => submit s.1 s.2 p.1 p.2)
    ({ dataFile := .wellFormed emptyTable, reportPdf := none, stressPng := none },
     emptyTable)

/-! ## Linear regression (main.py lines 70-75)

`LinearRegression().fit(X, y)` with the single feature `study_hours` is the
ordinary-least-squares line; its closed form is fitted below and proved to
minimise the sum of squared residuals. -/

/-- Number of points, as a rational. -/
def nQ (l : List (ℚ × ℚ)) : ℚ := (l.length : ℚ)

/-- Sum of the x coordinates. -/
def sumX (l : List (ℚ × ℚ)) : ℚ := (l.map Prod.fst).sum

/-- Sum of the y coordinates. -/
def sumY (l : List (ℚ × ℚ)) : ℚ := (l.map Prod.snd).sum

/-- Sum of squared x coordinates. -/
def sumXX (l : List (ℚ × ℚ)) : ℚ := (l.map fun p => p.1 * p.1).sum

/-- Sum of the products x·y. -/
def sumXY (l : List (ℚ × ℚ)) : ℚ := (l.map fun p => p.1 * p.2).sum

/-- Sum of squared y coordinates. -/
def sumYY (l : List (ℚ × ℚ)) : ℚ := (l.map fun p => p.2 * p.2).sum

/-- The scaled variance of the x coordinates, n·Σx² − (Σx)²: positive
exactly when two points have different x. -/
def scatterX (l : List (ℚ × ℚ)) : ℚ := nQ l * sumXX l - sumX l * sumX l

/-- Slope of the least-squares line fit by `LinearRegression().fit`. -/
def fitSlope (l : List (ℚ × ℚ)) : ℚ :=
  (nQ l * sumXY l - sumX l * sumY l) / scatterX l

/-- Intercept of the least-squares line fit by `LinearRegression().fit`. -/
def fitIntercept (l : List (ℚ × ℚ)) : ℚ :=
  (sumY l - fitSlope l * sumX l) / nQ l

/-- `reg.predict([[x]])[0]`: evaluate the fitted line. -/
def regPredict (l : List (ℚ × ℚ)) (x : ℚ) : ℚ :=
  fitSlope l * x + fitIntercept l

/-- Sum of squared residuals of the line y = a·x + b over the points. -/
def sse (l : List (ℚ × ℚ)) (a b : ℚ) : ℚ :=
  (l.map fun p => (p.2 - (a * p.1 + b)) ^ 2).sum

/-- What the spec's phrase "ordinary least-squares linear fit" means:
the coefficients minimise the sum of squared residuals over all lines. -/
def IsOLSFit (l : List (ℚ × ℚ)) (m c : ℚ) : Prop :=
  ∀ a b : ℚ, sse l m c ≤ sse l a b

/-! ## Burnout rule and decision tree (main.py lines 77-84) -/

/-- The labelling rule of main.py line 78:
`np.where((df.sleep_hours < 6) & (df.stress_level > 7), 1, 0)`. -/
def burnout_risk (sleep stress : ℚ) : ℕ :=
  if sleep < 6 ∧ stress > 7 then 1 else 0

/-- The burnout label of one historical row. -/
def labelRow (o : Observation) : ℕ := burnout_risk o.sleep_hours o.stress_level

/-- A training/query point of the classifier: the feature columns
`['sleep_hours', 'stress_level', 'study_hours']` in that order. -/
def Feat : Type := ℚ × ℚ × ℚ

instance : DecidableEq Feat := by unfold Feat; infer_instance

/-- The i-th feature of a point. -/
def getFeat (x : Feat) : Fin 3 → ℚ
  | 0 => x.1
  | 1 => x.2.1
  | 2 => x.2.2

/-- The feature row of one observation, in the column order of `X_tree`. -/
def featRow (o : Observation) : Feat :=
  (o.sleep_hours, o.stress_level, o.study_hours)

/-- Insert into a sorted list of rationals. -/
def insertQ (x : ℚ) : List ℚ → List ℚ
  | [] => [x]
  | y :: ys => if x ≤ y then x :: y :: ys else y :: insertQ x ys

/-- Insertion sort of rationals (ascending). -/
def sortQ (l : List ℚ) : List ℚ := l.foldr insertQ []

/-- Insert into a sorted list of naturals. -/
def insertN (x : ℕ) : List ℕ → List ℕ
  | [] => [x]
  | y :: ys => if x ≤ y then x :: y :: ys else y :: insertN x ys

/-- Insertion sort of naturals (ascending), the order `classes_` uses. -/
def sortN (l : List ℕ) : List ℕ := l.foldr insertN []

/-- Gini impurity of a list of class labels:
1 − Σ over classes of (count/n)². -/
def gini (ls : List ℕ) : ℚ :=
  1 - ((ls.dedup.map fun c => ((ls.count c : ℚ) / (ls.length : ℚ)) ^ 2).sum)

/-- Labelled training sample of the classifier. -/
def Sample : Type := Feat × ℕ

instance : DecidableEq Sample := by unfold Sample; infer_instance

/-- The labels of a training set. -/
def labelsOf (data : List Sample) : List ℕ := data.map Prod.snd

/-- Candidate thresholds of one feature: the midpoints between consecutive
distinct sorted feature values, as the best-splitter enumerates them. -/
def thresholds (data : List Sample) (i : Fin 3) : List ℚ :=
  let vals := sortQ ((data.map fun r => getFeat r.1 i).dedup)
  (vals.zip vals.tail).map fun p => (p.1 + p.2) / 2

/-- The rows sent left by a split (feature value ≤ threshold). -/
def splitLeft (data : List Sample) (i : Fin 3) (thr : ℚ) : List Sample :=
  data.filter fun r => decide (getFeat r.1 i ≤ thr)

/-- The rows sent right by a split (feature value > threshold). -/
def splitRight (data : List Sample) (i : Fin 3) (thr : ℚ) : List Sample :=
  data.filter fun r => decide (¬ getFeat r.1 i ≤ thr)

/-- Weighted gini impurity of the two children of a split; the CART
criterion picks the split minimising it. -/
def splitScore (data : List Sample) (i : Fin 3) (thr : ℚ) : ℚ :=
  let L := splitLeft data i thr
  let R := splitRight data i thr
  ((L.length : ℚ) * gini (labelsOf L) + (R.length : ℚ) * gini (labelsOf R)) /
    (data.length : ℚ)

/-- All candidate splits of a training set. -/
def candidateSplits (data : List Sample) : List (Fin 3 × ℚ) :=
  (List.finRange 3).flatMap fun i => (thresholds data i).map fun thr => (i, thr)

/-- The best split: minimal weighted-gini among candidates, first found
kept on ties. -/
def bestSplit (data : List Sample) : Option (Fin 3 × ℚ) :=
  candidateSplits data |>.foldl
    (fun best c =>
      match best with
      | none => some c
      | some b => if splitScore data c.1 c.2 < splitScore data b.1 b.2 then some c else some b)
    none

/-- The label a leaf predicts: the class of maximal count, lowest class
on ties (argmax over ascending `classes_`). -/
def majorityLabel (ls : List ℕ) : ℕ :=
  match sortN ls.dedup with
  | [] => 0
  | c :: cs => cs.foldl (fun best c2 => if ls.count best < ls.count c2 then c2 else best) c

/-- A fitted decision tree. -/
inductive Tree where
  | leaf (label : ℕ)
  | node (i : Fin 3) (thr : ℚ) (l r : Tree)
deriving Repr, DecidableEq

/-- CART tree growth with default parameters: split until pure (or no
split possible), recursion bounded by fuel. -/
def buildTree : ℕ → List Sample → Tree
  | 0, data => .leaf (majorityLabel (labelsOf data))
  | fuel + 1, data =>
    if (labelsOf data).dedup.length ≤ 1 then .leaf (majorityLabel (labelsOf data))
    else
      match bestSplit data with
      | none => .leaf (majorityLabel (labelsOf data))
      | some (i, thr) =>
        .node i thr (buildTree fuel (splitLeft data i thr))
          (buildTree fuel (splitRight data i thr))

/-- `DecisionTreeClassifier().fit`: grow the tree on the whole training
set (fuel = size suffices, every split being proper). -/
def fitTree (data : List Sample) : Tree := buildTree data.length data

/-- `tree.predict([[...]])[0]`: route the query point to a leaf. -/
def predictTree : Tree → Feat → ℕ
  | .leaf l, _ => l
  | .node i thr L R, x => if getFeat x i ≤ thr then predictTree L x else predictTree R x

/-! ## The analysis tab (main.py lines 65-91) -/

/-- What the analysis tab displays: either the warning of line 68, or the
insights of the else-branch — the predicted stress and, when the guard of
line 81 passes, the predicted burnout label. -/
inductive AnalysisResult where
  | needMoreData (warning : String)
  | insights (predStress : ℚ) (burnout : Option ℕ)
deriving Repr, DecidableEq

/-- The (study_hours, stress_level) pairs the regression is fit on. -/
def regrPairs (rows : List Observation) : List (ℚ × ℚ) :=
  rows.map fun o => (o.study_hours, o.stress_level)

/-- The labelled training set of the classifier: every historical row's
features with its burnout label. -/
def treeData (rows : List Observation) : List Sample :=
  rows.map fun o => (featRow o, labelRow o)

/-- The analysis tab (main.py lines 67-84): fewer than 2 rows shows a
warning; otherwise a fresh regression predicts stress at 10 study hours,
and — when the historical labels are not all identical — a fresh decision
tree predicts today's burnout label from the current widget values. -/
def analyze (rows : List Observation)
    (today_sleep today_stress today_study : ℚ) : AnalysisResult :=
  if rows.length < 2 then
    .needMoreData "Enter at least 2 days of data for analysis."
  else
    let pred_stress := regPredict (regrPairs rows) 10
    let data := treeData rows
    let risk : Option ℕ :=
      if 1 < (labelsOf data).dedup.length then
        some (predictTree (fitTree data) (today_sleep, today_stress, today_study))
      else none
    .insights pred_stress risk

/-- The burnout label the analysis tab reports, `none` when nothing is
shown (warning shown, or single-class guard failed). -/
def burnoutPrediction (rows : List Observation)
    (today_sleep today_stress today_study : ℚ) : Option ℕ :=
  match analyze rows today_sleep today_stress today_study with
  | .needMoreData _ => none
  | .insights _ b => b

/-- The line chart of main.py line 87: stress over time. -/
structure LineChart where
  title : String
  points : List (String × ℚ)
deriving Repr, DecidableEq

/-- The scatter chart of main.py line 90: stress vs study hours with an
OLS trend line. -/
structure ScatterChart where
  title : String
  points : List (ℚ × ℚ)
  trendSlope : ℚ
  trendIntercept : ℚ
deriving Repr, DecidableEq

/-- The two figures of the analysis tab (main.py lines 87-91), pure
functions of the log. -/
def renderCharts (rows : List Observation) : LineChart × ScatterChart :=
  ({ title := "Stress Over Time", points := rows.map fun o => (o.date, o.stress_level) },
   { title := "Stress vs Study Hours", points := regrPairs rows,
     trendSlope := fitSlope (regrPairs rows),
     trendIntercept := fitIntercept (regrPairs rows) })

/-! ## The plan generator (main.py lines 100-114) -/

/-- The plan text built by the Generate Plan button (main.py lines
102-112): a header, four phase lines over `phases = days_left // 4`, and
the externally generated tips block; `tips` stands for the text-generation
call's output, which the plan merely appends. -/
def generatePlan (days_left : ℕ) (exam strong weak tips : String) : String :=
  let phases := days_left / 4
  "Personalized " ++ toString days_left ++ "-Day Plan for " ++ exam ++ ":\n" ++
  ("Days 1-" ++ toString phases ++ ": Focus on strong subjects (" ++ strong ++
    ") + Basics & PYQs\n") ++
  ("Days " ++ toString (phases + 1) ++ "-" ++ toString (2 * phases) ++
    ": Tackle weak subjects (" ++ weak ++ ") + Drills\n") ++
  ("Days " ++ toString (2 * phases + 1) ++ "-" ++ toString (3 * phases) ++
    ": Mixed mocks + Review\n") ++
  ("Days " ++ toString (3 * phases + 1) ++ "-" ++ toString days_left ++
    ": Full revision + Rest\n") ++
  "\nHealth Reminders:\n" ++ tips

/-- The four phase boundaries the plan renders, with `p = days_left / 4`:
days 1..p, p+1..2p, 2p+1..3p, 3p+1..days_left. -/
def phaseBounds (days_left : ℕ) : List (ℕ × ℕ) :=
  let p := days_left / 4
  [(1, p), (p + 1, 2 * p), (2 * p + 1, 3 * p), (3 * p + 1, days_left)]

/-- Phase-1 line rendered from an explicit boundary pair. -/
def phaseLine1 (b : ℕ × ℕ) (strong : String) : String :=
  "Days " ++ toString b.1 ++ "-" ++ toString b.2 ++
    ": Focus on strong subjects (" ++ strong ++ ") + Basics & PYQs\n"

/-- Phase-2 line rendered from an explicit boundary pair. -/
def phaseLine2 (b : ℕ × ℕ) (weak : String) : String :=
  "Days " ++ toString b.1 ++ "-" ++ toString b.2 ++
    ": Tackle weak subjects (" ++ weak ++ ") + Drills\n"

/-- Phase-3 line rendered from an explicit boundary pair. -/
def phaseLine3 (b : ℕ × ℕ) : String :=
  "Days " ++ toString b.1 ++ "-" ++ toString b.2 ++ ": Mixed mocks + Review\n"

/-- Phase-4 line rendered from an explicit boundary pair. -/
def phaseLine4 (b : ℕ × ℕ) : String :=
  "Days " ++ toString b.1 ++ "-" ++ toString b.2 ++ ": Full revision + Rest\n"

/-- A plan laid out from an explicit list of exactly four phase
boundaries; any other shape renders nothing. -/
def planFromBounds (days_left : ℕ) (exam strong weak tips : String) :
    List (ℕ × ℕ) → String
  | [b1, b2, b3, b4] =>
    "Personalized " ++ toString days_left ++ "-Day Plan for " ++ exam ++ ":\n" ++
    phaseLine1 b1 strong ++
    phaseLine2 b2 weak ++
    phaseLine3 b3 ++
    phaseLine4 b4 ++
    "\nHealth Reminders:\n" ++ tips
  | _ => ""

/-! ## The export tab (main.py lines 124-141) and the frame of each tab -/

/-- The Generate PDF button: draws the title and entry count, saves the
stress-over-time chart as stress.png, embeds it and saves report.pdf.
Only the two artifact files change; the data file is never written.
(The source references `plt` without a matplotlib binding in scope — a
slip elided here; the modelled behaviour is the write sequence of lines
127-139.) -/
def exportReport (env : FileEnv) (t : Table) : FileEnv × String :=
  let img := t.rows.map fun o => (o.date, o.stress_level)
  ({ env with
      reportPdf := some
        { titleLine := "AI Study & Wellness Report",
          entriesLine := "Data Entries: " ++ toString t.rows.length,
          chartImage := img },
      stressPng := some img },
   "PDF ready!")

/-- The analysis tab as a world transformer: it only reads. -/
def runAnalysis (env : FileEnv) (t : Table)
    (today_sleep today_stress today_study : ℚ) : FileEnv × AnalysisResult :=
  (env, analyze t.rows today_sleep today_stress today_study)

/-- Chart rendering as a world transformer: it only reads. -/
def runCharts (env : FileEnv) (t : Table) : FileEnv × (LineChart × ScatterChart) :=
  (env, renderCharts t.rows)

/-- The plan tab as a world transformer: it only reads. -/
def runPlan (env : FileEnv) (days_left : ℕ) (exam strong weak tips : String) :
    FileEnv × String :=
  (env, generatePlan days_left exam strong weak tips)

/-! ## Concrete data for the end-to-end scenarios -/

/-- Day 1 of the spec's end-to-end scenario: study=2, stress=3, sleep=8,
exercise=20. -/
def day1 : Observation :=
  { date := "2025-01-01", study_hours := 2, stress_level := 3,
    sleep_hours := 8, exercise_min := 20 }

/-- Day 2 of the spec's end-to-end scenario: study=8, stress=9, sleep=4,
exercise=0. -/
def day2 : Observation :=
  { date := "2025-01-02", study_hours := 8, stress_level := 9,
    sleep_hours := 4, exercise_min := 0 }

/-- A concrete two-submission session used to instantiate the append
round-trip. -/
def demoInputs : List (Date × FormInput) :=
  [(⟨2025, 1, 1⟩, { study_hours := 2, stress_level := 3, sleep_hours := 8, exercise_min := 20 }),
   (⟨2025, 1, 2⟩, { study_hours := 8, stress_level := 9, sleep_hours := 4, exercise_min := 0 })]

/-! ## Least-squares algebra -/

/-- One more point: the count. -/
theorem nQ_cons (p : ℚ × ℚ) (t : List (ℚ × ℚ)) : nQ (p :: t) = nQ t + 1 := by
  simp [nQ]

/-- One more point: Σx. -/
theorem sumX_cons (p : ℚ × ℚ) (t : List (ℚ × ℚ)) : sumX (p :: t) = p.1 + sumX t := by
  simp [sumX]

/-- One more point: Σy. -/
theorem sumY_cons (p : ℚ × ℚ) (t : List (ℚ × ℚ)) : sumY (p :: t) = p.2 + sumY t := by
  simp [sumY]

/-- One more point: Σx². -/
theorem sumXX_cons (p : ℚ × ℚ) (t : List (ℚ × ℚ)) :
    sumXX (p :: t) = p.1 * p.1 + sumXX t := by
  simp [sumXX]

/-- One more point: Σxy. -/
theorem sumXY_cons (p : ℚ × ℚ) (t : List (ℚ × ℚ)) :
    sumXY (p :: t) = p.1 * p.2 + sumXY t := by
  simp [sumXY]

/-- One more point: Σy². -/
theorem sumYY_cons (p : ℚ × ℚ) (t : List (ℚ × ℚ)) :
    sumYY (p :: t) = p.2 * p.2 + sumYY t := by
  simp [sumYY]

/-- One more point: the residual sum. -/
theorem sse_cons (p : ℚ × ℚ) (t : List (ℚ × ℚ)) (a b : ℚ) :
    sse (p :: t) a b = (p.2 - (a * p.1 + b)) ^ 2 + sse t a b := by
  simp [sse]

/-- Expansion of the sum of squared residuals into the moment sums. -/
theorem sse_expand (l : List (ℚ × ℚ)) (a b : ℚ) :
    sse l a b = sumYY l + a ^ 2 * sumXX l + nQ l * b ^ 2
      - 2 * a * sumXY l - 2 * b * sumY l + 2 * a * b * sumX l := by
  induction l with
  | nil => simp [sse, sumYY, sumXX, sumXY, sumX, sumY, nQ]
  | cons p t ih =>
    rw [sse_cons, sumYY_cons, sumXX_cons, nQ_cons, sumXY_cons, sumY_cons, sumX_cons]
    linear_combination ih

/-- Expansion of the sum of squared x-differences into the moment sums. -/
theorem sum_sq_sub (x : ℚ) (t : List (ℚ × ℚ)) :
    (t.map fun z => (x - z.1) ^ 2).sum = nQ t * x ^ 2 - 2 * x * sumX t + sumXX t := by
  induction t with
  | nil => simp [sumX, sumXX, nQ]
  | cons p t ih =>
    rw [List.map_cons, List.sum_cons, nQ_cons, sumX_cons, sumXX_cons]
    linear_combination ih

/-- Adding a point adds its squared distances to the x-scatter. -/
theorem scatterX_cons (p : ℚ × ℚ) (t : List (ℚ × ℚ)) :
    scatterX (p :: t) = scatterX t + (t.map fun z => (p.1 - z.1) ^ 2).sum := by
  rw [scatterX, scatterX, nQ_cons, sumX_cons, sumXX_cons]
  linear_combination -sum_sq_sub p.1 t

/-- The x-scatter is never negative. -/
theorem scatterX_nonneg (l : List (ℚ × ℚ)) : 0 ≤ scatterX l := by
  induction l with
  | nil => simp [scatterX, nQ, sumX, sumXX]
  | cons p t ih =>
    rw [scatterX_cons]
    have hsum : 0 ≤ (t.map fun z => (p.1 - z.1) ^ 2).sum :=
      List.sum_nonneg (by intro x hx; obtain ⟨z, _, rfl⟩ := List.mem_map.mp hx; positivity)
    linarith

/-- Two points with different x make the x-scatter strictly positive. -/
theorem scatterX_pos :
    ∀ l : List (ℚ × ℚ), (∃ p ∈ l, ∃ q ∈ l, p.1 ≠ q.1) → 0 < scatterX l := by
  intro l
  induction l with
  | nil => rintro ⟨p, hp, -⟩; cases hp
  | cons a t ih =>
    rintro ⟨p, hp, q, hq, hne⟩
    rw [scatterX_cons]
    have hsum : ∀ x ∈ (t.map fun z => (a.1 - z.1) ^ 2), (0:ℚ) ≤ x := by
      intro x hx; obtain ⟨z, _, rfl⟩ := List.mem_map.mp hx; positivity
    have hsum0 : 0 ≤ (t.map fun z => (a.1 - z.1) ^ 2).sum := List.sum_nonneg hsum
    rcases List.mem_cons.mp hp with rfl | hp' <;> rcases List.mem_cons.mp hq with rfl | hq'
    · exact absurd rfl hne
    · have hmem : (p.1 - q.1) ^ 2 ∈ (t.map fun z => (p.1 - z.1) ^ 2) :=
        List.mem_map.mpr ⟨q, hq', rfl⟩
      have h1 : (p.1 - q.1) ^ 2 ≤ (t.map fun z => (p.1 - z.1) ^ 2).sum :=
        List.single_le_sum hsum _ hmem
      have hd : p.1 - q.1 ≠ 0 := sub_ne_zero.mpr hne
      have h2 : 0 < (p.1 - q.1) ^ 2 := by positivity
      have := scatterX_nonneg t
      linarith
    · have hmem : (q.1 - p.1) ^ 2 ∈ (t.map fun z => (q.1 - z.1) ^ 2) :=
        List.mem_map.mpr ⟨p, hp', rfl⟩
      have h1 : (q.1 - p.1) ^ 2 ≤ (t.map fun z => (q.1 - z.1) ^ 2).sum :=
        List.single_le_sum hsum _ hmem
      have hd : q.1 - p.1 ≠ 0 := sub_ne_zero.mpr (Ne.symm hne)
      have h2 : 0 < (q.1 - p.1) ^ 2 := by positivity
      have := scatterX_nonneg t
      linarith
    · have := ih ⟨p, hp', q, hq', hne⟩
      linarith

/-- Completing the square: any line's residual sum exceeds the fitted
line's by two weighted squares. -/
theorem sse_decomp (l : List (ℚ × ℚ)) (hn : nQ l ≠ 0) (hD : scatterX l ≠ 0)
    (a b : ℚ) :
    sse l a b = sse l (fitSlope l) (fitIntercept l)
      + (scatterX l / nQ l) * (a - fitSlope l) ^ 2
      + nQ l * (b - (sumY l - a * sumX l) / nQ l) ^ 2 := by
  rw [sse_expand, sse_expand]
  rw [fitIntercept, fitSlope]
  rw [show scatterX l = nQ l * sumXX l - sumX l * sumX l from rfl] at hD ⊢
  field_simp
  ring

/-- The closed-form coefficients minimise the sum of squared residuals:
the fit is the ordinary least squares one. -/
theorem fit_isOLS (l : List (ℚ × ℚ)) (hn : 0 < nQ l) (hD : 0 < scatterX l) :
    IsOLSFit l (fitSlope l) (fitIntercept l) := by
  intro a b
  rw [sse_decomp l hn.ne' hD.ne' a b]
  have h1 : 0 ≤ (scatterX l / nQ l) * (a - fitSlope l) ^ 2 :=
    mul_nonneg (div_nonneg hD.le hn.le) (sq_nonneg _)
  have h2 : 0 ≤ nQ l * (b - (sumY l - a * sumX l) / nQ l) ^ 2 :=
    mul_nonneg hn.le (sq_nonneg _)
  linarith

/-! ## Classifier label range -/

/-- Membership after sorted insert comes from the inserted element or the
original list. -/
theorem mem_of_mem_insertN {x a : ℕ} :
    ∀ {l : List ℕ}, x ∈ insertN a l → x = a ∨ x ∈ l := by
  intro l
  induction l with
  | nil =>
    intro h
    simp only [insertN, List.mem_singleton] at h
    exact Or.inl h
  | cons y ys ih =>
    intro h
    rw [insertN] at h
    by_cases hle : a ≤ y
    · rw [if_pos hle] at h
      rcases List.mem_cons.mp h with h1 | h1
      · exact Or.inl h1
      · exact Or.inr h1
    · rw [if_neg hle] at h
      rcases List.mem_cons.mp h with h1 | h1
      · exact Or.inr (h1 ▸ List.mem_cons_self y ys)
      · rcases ih h1 with h2 | h2
        · exact Or.inl h2
        · exact Or.inr (List.mem_cons_of_mem y h2)

/-- Sorting introduces no new elements. -/
theorem mem_of_mem_sortN {x : ℕ} : ∀ {l : List ℕ}, x ∈ sortN l → x ∈ l := by
  intro l
  induction l with
  | nil => intro h; simp [sortN] at h
  | cons y ys ih =>
    intro h
    rcases mem_of_mem_insertN (l := sortN ys) h with h1 | h1
    · exact h1 ▸ List.mem_cons_self y ys
    · exact List.mem_cons_of_mem y (ih h1)

/-- The fold that keeps the better of two candidates only ever returns a
candidate. -/
theorem foldl_best_mem (ls : List ℕ) :
    ∀ (cs : List ℕ) (c : ℕ),
      cs.foldl (fun best c2 => if ls.count best < ls.count c2 then c2 else best) c
        ∈ c :: cs := by
  intro cs
  induction cs with
  | nil => intro c; simp
  | cons d t ih =>
    intro c
    simp only [List.foldl_cons]
    rcases List.mem_cons.mp (ih (if ls.count c < ls.count d then d else c)) with h | h
    · rw [h]
      split
      · exact List.mem_cons_of_mem _ (List.mem_cons_self _ _)
      · exact List.mem_cons_self _ _
    · exact List.mem_cons_of_mem _ (List.mem_cons_of_mem _ h)

/-- The majority label of a list whose labels are all ≤ 1 is ≤ 1. -/
theorem majorityLabel_le_one (ls : List ℕ) (h : ∀ x ∈ ls, x ≤ 1) :
    majorityLabel ls ≤ 1 := by
  rw [majorityLabel]
  cases hs : sortN ls.dedup with
  | nil => exact Nat.zero_le 1
  | cons c cs =>
    have hmem := foldl_best_mem ls cs c
    have : (cs.foldl (fun best c2 => if ls.count best < ls.count c2 then c2 else best) c)
        ∈ sortN ls.dedup := hs ▸ hmem
    exact h _ (List.mem_dedup.mp (mem_of_mem_sortN this))

/-- Filtering preserves the label bound. -/
theorem splitLeft_labels {data : List Sample} {i : Fin 3} {thr : ℚ}
    (h : ∀ r ∈ data, r.2 ≤ 1) : ∀ r ∈ splitLeft data i thr, r.2 ≤ 1 := by
  intro r hr
  exact h r (List.mem_filter.mp hr).1

/-- Filtering preserves the label bound. -/
theorem splitRight_labels {data : List Sample} {i : Fin 3} {thr : ℚ}
    (h : ∀ r ∈ data, r.2 ≤ 1) : ∀ r ∈ splitRight data i thr, r.2 ≤ 1 := by
  intro r hr
  exact h r (List.mem_filter.mp hr).1

/-- Labels of a training set inherit a pointwise bound on the samples. -/
theorem labelsOf_le_one {data : List Sample} (h : ∀ r ∈ data, r.2 ≤ 1) :
    ∀ x ∈ labelsOf data, x ≤ 1 := by
  intro x hx
  obtain ⟨r, hr, rfl⟩ := List.mem_map.mp hx
  exact h r hr

/-- A tree grown on labels ≤ 1 predicts a label ≤ 1 at every point. -/
theorem predict_buildTree_le_one :
    ∀ (fuel : ℕ) (data : List Sample) (x : Feat),
      (∀ r ∈ data, r.2 ≤ 1) → predictTree (buildTree fuel data) x ≤ 1 := by
  intro fuel
  induction fuel with
  | zero =>
    intro data x h
    rw [buildTree, predictTree]
    exact majorityLabel_le_one _ (labelsOf_le_one h)
  | succ n ih =>
    intro data x h
    rw [buildTree]
    split
    · rw [predictTree]
      exact majorityLabel_le_one _ (labelsOf_le_one h)
    · split
      · rw [predictTree]
        exact majorityLabel_le_one _ (labelsOf_le_one h)
      · rw [predictTree]
        split
        · exact ih _ x (splitLeft_labels h)
        · exact ih _ x (splitRight_labels h)

/-- Every burnout label is 0 or 1, hence ≤ 1. -/
theorem treeData_labels_le_one (rows : List Observation) :
    ∀ r ∈ treeData rows, r.2 ≤ 1 := by
  intro r hr
  obtain ⟨o, _, rfl⟩ := List.mem_map.mp hr
  rw [labelRow, burnout_risk]
  split <;> omega

/-- The training labels are the per-row burnout labels. -/
theorem labelsOf_treeData (rows : List Observation) :
    labelsOf (treeData rows) = rows.map labelRow := by
  rw [labelsOf, treeData, List.map_map]
  rfl

/-! ## Dedup and cardinality helpers -/

/-- A list deduplicates to at most one element exactly when all its
elements coincide. -/
theorem dedup_length_le_one_iff {α : Type} [DecidableEq α] (l : List α) :
    l.dedup.length ≤ 1 ↔ ∀ a ∈ l, ∀ b ∈ l, a = b := by
  constructor
  · intro h a ha b hb
    have ha' : a ∈ l.dedup := List.mem_dedup.mpr ha
    have hb' : b ∈ l.dedup := List.mem_dedup.mpr hb
    cases hd : l.dedup with
    | nil => rw [hd] at ha'; cases ha'
    | cons c cs =>
      cases hcs : cs with
      | nil =>
        rw [hd, hcs] at ha' hb'
        have h1 := List.mem_singleton.mp ha'
        have h2 := List.mem_singleton.mp hb'
        rw [h1, h2]
      | cons d t =>
        rw [hd, hcs] at h
        simp at h
  · intro h
    cases hd : l.dedup with
    | nil => simp
    | cons c cs =>
      cases hcs : cs with
      | nil => simp
      | cons d t =>
        exfalso
        have hnd := l.nodup_dedup
        rw [hd, hcs] at hnd
        have hc : c ∈ l := List.mem_dedup.mp (hd ▸ List.mem_cons_self c cs)
        have hdl : d ∈ l := by
          refine List.mem_dedup.mp ?_
          rw [hd, hcs]
          exact List.mem_cons_of_mem c (List.mem_cons_self d t)
        have : c = d := h c hc d hdl
        rw [List.nodup_cons] at hnd
        exact hnd.1 (this ▸ List.mem_cons_self d t)

/-- Two distinct members force length at least two. -/
theorem two_le_length_of_two_mem {α : Type} {l : List α} {a b : α}
    (ha : a ∈ l) (hb : b ∈ l) (hne : a ≠ b) : 2 ≤ l.length := by
  cases l with
  | nil => cases ha
  | cons x t =>
    cases t with
    | nil =>
      have h1 := List.mem_singleton.mp ha
      have h2 := List.mem_singleton.mp hb
      exact absurd (h1.trans h2.symm) hne
    | cons y s => simp [List.length_cons]

/-! ## Session fold -/

/-- Folding submissions over any start appends one row each, keeps the
header, and keeps the persisted file synchronised with the table. -/
theorem foldSubmit :
    ∀ (inputs : List (Date × FormInput)) (env : FileEnv) (t : Table),
      (inputs.foldl (fun s p => submit s.1 s.2 p.1 p.2) (env, t)).2.cols = t.cols ∧
      (inputs.foldl (fun s p => submit s.1 s.2 p.1 p.2) (env, t)).2.rows
        = t.rows ++ inputs.map (fun p => new_data p.1 p.2) ∧
      (env.dataFile = .wellFormed t →
        (inputs.foldl (fun s p => submit s.1 s.2 p.1 p.2) (env, t)).1.dataFile
          = .wellFormed (inputs.foldl (fun s p => submit s.1 s.2 p.1 p.2) (env, t)).2) := by
  intro inputs
  induction inputs with
  | nil =>
    intro env t
    exact ⟨rfl, by simp, fun h => h⟩
  | cons p ps ih =>
    intro env t
    simp only [List.foldl_cons, List.map_cons]
    obtain ⟨h1, h2, h3⟩ :=
      ih (submit env t p.1 p.2).1 (submit env t p.1 p.2).2
    refine ⟨h1, ?_, fun _ => h3 rfl⟩
    rw [h2]
    show ({ t with rows := t.rows ++ [new_data p.1 p.2] } : Table).rows ++ _ = _
    simp

/-- Unfolding of the reported burnout label through the two guards. -/
theorem burnoutPrediction_eq (rows : List Observation) (s t u : ℚ) :
    burnoutPrediction rows s t u =
      if rows.length < 2 then none
      else if 1 < (labelsOf (treeData rows)).dedup.length then
        some (predictTree (fitTree (treeData rows)) (s, t, u))
      else none := by
  by_cases hlen : rows.length < 2
  · simp [burnoutPrediction, analyze, hlen]
  · simp [burnoutPrediction, analyze, hlen]

/-! ## The claims -/

/-- C1: for every sequence of N valid appends starting from an empty log,
reloading the persisted table yields exactly N rows, in submission order,
with each row's field values equal to the submitted values; no row is
lost or reordered. -/
theorem append_reload_roundtrip :
    ∀ inputs : List (Date × FormInput),
      (∀ p ∈ inputs, ValidInput p.2) →
      read_csv (runSession inputs).1.dataFile = .ok (runSession inputs).2 ∧
      (runSession inputs).2.rows = inputs.map (fun p => new_data p.1 p.2) ∧
      (runSession inputs).2.rows.length = inputs.length ∧
      (runSession inputs).2.cols = fixedColumns := by
  intro inputs _
  obtain ⟨h1, h2, h3⟩ := foldSubmit inputs
    { dataFile := .wellFormed emptyTable, reportPdf := none, stressPng := none }
    emptyTable
  rw [runSession]
  refine ⟨?_, ?_, ?_, h1⟩
  · rw [h3 rfl]
    rfl
  · rw [h2]; simp [emptyTable]
  · rw [h2]; simp [emptyTable]

/-- Witness for C1: a concrete two-submission session, valid inputs,
whose reload returns exactly its two rows. -/
theorem append_reload_roundtrip_witness :
    (∀ p ∈ demoInputs, ValidInput p.2) ∧
    read_csv (runSession demoInputs).1.dataFile = .ok (runSession demoInputs).2 ∧
    (runSession demoInputs).2.rows.length = demoInputs.length :=
  ⟨by decide, (append_reload_roundtrip demoInputs (by decide)).1,
   (append_reload_roundtrip demoInputs (by decide)).2.2.1⟩

/-- C2: per historical row the burnout label is 1 iff sleep_hours < 6 and
stress_level > 7, else 0; the four boundary combinations behave as the
strict inequalities dictate. -/
theorem burnout_label_rule :
    (∀ o : Observation,
      (labelRow o = 1 ↔ (o.sleep_hours < 6 ∧ 7 < o.stress_level)) ∧
      (labelRow o = 0 ↔ ¬(o.sleep_hours < 6 ∧ 7 < o.stress_level))) ∧
    burnout_risk (59/10) 8 = 1 ∧ burnout_risk 6 8 = 0 ∧
    burnout_risk 5 7 = 0 ∧ burnout_risk 5 (71/10) = 1 := by
  refine ⟨?_, by with_unfolding_all decide, by with_unfolding_all decide,
    by with_unfolding_all decide, by with_unfolding_all decide⟩
  intro o
  rw [labelRow, burnout_risk]
  by_cases h : o.sleep_hours < 6 ∧ 7 < o.stress_level
  · simp [h]
  · simp [h]

/-- C3: with fewer than 2 rows the analysis tab shows only the warning
(no stress prediction is produced); with at least 2 rows the regression
branch runs and insights are displayed — a soft condition, not an
error. -/
theorem regression_data_guard :
    ∀ (rows : List Observation) (s t u : ℚ),
      (rows.length < 2 →
        analyze rows s t u
          = .needMoreData "Enter at least 2 days of data for analysis.") ∧
      (2 ≤ rows.length → ∃ p b, analyze rows s t u = .insights p b) := by
  intro rows s t u
  constructor
  · intro h
    rw [analyze, if_pos h]
  · intro h
    rw [analyze, if_neg (by omega)]
    exact ⟨_, _, rfl⟩

/-- C4: the burnout prediction is omitted exactly when every historical
row gets the same label under the fixed rule (logs of 0 or 1 rows
included); otherwise the classifier fit on all rows predicts a label in
{0, 1}. -/
theorem classifier_single_class_guard :
    ∀ (rows : List Observation) (s t u : ℚ),
      ((∀ o1 ∈ rows, ∀ o2 ∈ rows, labelRow o1 = labelRow o2) →
        burnoutPrediction rows s t u = none) ∧
      ((∃ o1 ∈ rows, ∃ o2 ∈ rows, labelRow o1 ≠ labelRow o2) →
        ∃ r, burnoutPrediction rows s t u = some r ∧ (r = 0 ∨ r = 1)) := by
  intro rows s t u
  constructor
  · intro h
    rw [burnoutPrediction_eq]
    by_cases hlen : rows.length < 2
    · rw [if_pos hlen]
    · rw [if_neg hlen]
      have hle : (labelsOf (treeData rows)).dedup.length ≤ 1 := by
        rw [labelsOf_treeData]
        refine (dedup_length_le_one_iff _).mpr ?_
        intro a ha b hb
        obtain ⟨o1, ho1, rfl⟩ := List.mem_map.mp ha
        obtain ⟨o2, ho2, rfl⟩ := List.mem_map.mp hb
        exact h o1 ho1 o2 ho2
      rw [if_neg (by omega)]
  · rintro ⟨o1, h1, o2, h2, hne⟩
    have hlen : ¬ rows.length < 2 := by
      have := two_le_length_of_two_mem h1 h2 (fun e => hne (congrArg labelRow e))
      omega
    have hgt : 1 < (labelsOf (treeData rows)).dedup.length := by
      rw [labelsOf_treeData]
      by_contra h'
      push_neg at h'
      exact hne ((dedup_length_le_one_iff _).mp h' _
        (List.mem_map.mpr ⟨o1, h1, rfl⟩) _ (List.mem_map.mpr ⟨o2, h2, rfl⟩))
    rw [burnoutPrediction_eq, if_neg hlen, if_pos hgt]
    refine ⟨_, rfl, ?_⟩
    have := predict_buildTree_le_one (treeData rows).length (treeData rows)
      (s, t, u) (treeData_labels_le_one rows)
    rw [fitTree]
    omega

/-- C5: a missing data file at startup yields an empty five-column table,
written back to the file, with no error; a malformed file is not caught
and propagates as a read error. -/
theorem load_missing_file_recovery :
    loadOrInit .absent = .ok (emptyTable, .wellFormed emptyTable) ∧
    emptyTable = { cols := fixedColumns, rows := [] } ∧
    loadOrInit .malformed = .error .parseError :=
  ⟨rfl, rfl, rfl⟩

/-- C6: submit is the only operation writing the persisted data file;
analysis, chart rendering, plan generation leave the world unchanged, and
the PDF export leaves the data file unchanged (it writes only the report
artifacts). -/
theorem append_only_writer :
    ∀ (env : FileEnv) (t : Table) (s u v : ℚ) (d : ℕ)
      (exam strong weak tips : String) (today : Date) (f : FormInput),
      (runAnalysis env t s u v).1 = env ∧
      (runCharts env t).1 = env ∧
      (runPlan env d exam strong weak tips).1 = env ∧
      (exportReport env t).1.dataFile = env.dataFile ∧
      (submit env t today f).1.dataFile
        = .wellFormed { t with rows := t.rows ++ [new_data today f] } := by
  intro env t s u v d exam strong weak tips today f
  exact ⟨rfl, rfl, rfl, rfl, rfl⟩

/-- C7: the plan integer-divides days_left by 4 and renders exactly four
phases with boundaries 1..p, p+1..2p, 2p+1..3p, 3p+1..days_left; for
days_left = 20 the phases are 1-5, 6-10, 11-15, 16-20. -/
theorem plan_four_phases :
    ∀ (d : ℕ) (exam strong weak tips : String), 1 ≤ d →
      generatePlan d exam strong weak tips
        = planFromBounds d exam strong weak tips (phaseBounds d) ∧
      phaseBounds 20 = [(1, 5), (6, 10), (11, 15), (16, 20)] := by
  intro d exam strong weak tips _
  constructor
  · with_unfolding_all rfl
  · rfl

/-- Witness for C7: the concrete 20-day plan decomposes into the four
5-day phases. -/
theorem plan_four_phases_witness :
    1 ≤ 20 ∧
    generatePlan 20 "IOQM" "Algebra" "NT" "tips"
      = planFromBounds 20 "IOQM" "Algebra" "NT" "tips" (phaseBounds 20) ∧
    phaseBounds 20 = [(1, 5), (6, 10), (11, 15), (16, 20)] :=
  ⟨by decide, (plan_four_phases 20 "IOQM" "Algebra" "NT" "tips" (by decide)).1,
   (plan_four_phases 20 "IOQM" "Algebra" "NT" "tips" (by decide)).2⟩

/-- C8: for a log with at least two rows and two distinct study_hours
values, the displayed stress prediction is the ordinary least-squares fit
of stress_level on study_hours over the whole log, evaluated at the fixed
probe of 10 study hours; the coefficients genuinely minimise the squared
residuals, and — the fit being a pure function of the current log — it is
recomputed from the full log on every invocation with no cached state. -/
theorem stress_prediction_is_ols :
    ∀ (rows : List Observation) (s t u : ℚ),
      2 ≤ rows.length →
      (∃ o1 ∈ rows, ∃ o2 ∈ rows, o1.study_hours ≠ o2.study_hours) →
      analyze rows s t u
        = .insights (regPredict (regrPairs rows) 10) (burnoutPrediction rows s t u) ∧
      regPredict (regrPairs rows) 10
        = fitSlope (regrPairs rows) * 10 + fitIntercept (regrPairs rows) ∧
      IsOLSFit (regrPairs rows) (fitSlope (regrPairs rows)) (fitIntercept (regrPairs rows)) := by
  intro rows s t u hlen hex
  have hnot : ¬ rows.length < 2 := by omega
  refine ⟨?_, rfl, ?_⟩
  · rw [analyze, if_neg hnot]
    rw [burnoutPrediction_eq, if_neg hnot]
  · apply fit_isOLS
    · have hl : (regrPairs rows).length = rows.length := by
        rw [regrPairs, List.length_map]
      rw [nQ, hl]
      exact_mod_cast Nat.lt_of_lt_of_le Nat.zero_lt_two hlen
    · apply scatterX_pos
      obtain ⟨o1, h1, o2, h2, hne⟩ := hex
      exact ⟨(o1.study_hours, o1.stress_level), List.mem_map.mpr ⟨o1, h1, rfl⟩,
        (o2.study_hours, o2.stress_level), List.mem_map.mpr ⟨o2, h2, rfl⟩, hne⟩

/-- Witness for C8: the two-row scenario log has distinct study hours and
its fitted line minimises the squared residuals. -/
theorem stress_prediction_is_ols_witness :
    2 ≤ ([day1, day2] : List Observation).length ∧
    IsOLSFit (regrPairs [day1, day2])
      (fitSlope (regrPairs [day1, day2])) (fitIntercept (regrPairs [day1, day2])) :=
  ⟨by decide,
   (stress_prediction_is_ols [day1, day2] 4 9 8 (by decide)
     ⟨day1, List.mem_cons_self day1 [day2], day2,
      List.mem_cons_of_mem day1 (List.mem_cons_self day2 []),
      by with_unfolding_all decide⟩).2.2⟩

/-- C9: on the two-row scenario log the guard passes (labels 0 and 1) and
the classifier predicts burnout 1 for today's inputs
(sleep=4, stress=9, study=8). -/
theorem scenario_burnout_one :
    burnoutPrediction [day1, day2] 4 9 8 = some 1 ∧
    labelRow day1 = 0 ∧ labelRow day2 = 1 := by
  with_unfolding_all decide

/-- C10: the stored date is always the submission day's date in
yyyy-mm-dd form, never taken from the form; two same-day submissions
produce two rows with identical dates (no per-date uniqueness). -/
theorem date_stamped_today :
    ∀ (env : FileEnv) (t : Table) (today : Date) (f g : FormInput),
      (new_data today f).date = formatDate today ∧
      (new_data today f).date = (new_data today g).date ∧
      (submit (submit env t today f).1 (submit env t today f).2 today g).2.rows
        = t.rows ++ [new_data today f, new_data today g] ∧
      formatDate ⟨2026, 3, 5⟩ = "2026-03-05" := by
  intro env t today f g
  refine ⟨rfl, rfl, ?_, rfl⟩
  show (t.rows ++ [new_data today f]) ++ [new_data today g] = _
  simp

end StudyTracker
